import Mathlib

/-!
Verification of the DexScreener paid-runners scanner core
(`paid_runners_bot.py`): candidate aggregation and merge, metrics
derivation, the scoring heuristic, the filter pipeline, and the
ranking / dedupe stage.

Conventions of the embedding:
- Python floats are modelled as exact rationals (`ℚ`) where the code
  only compares, adds, multiplies or divides stored numbers, and the
  transcendental scoring arithmetic (`math.log10`) is modelled over the
  reals with `Real.logb 10`.
- Python ints are `ℤ`.
- A dictionary key that may be absent is modelled as an `Option`;
  coercion helpers (`_safe_float` and `_safe_int` with default 0) turn
  an absent or non-numeric value into the default, which the model
  reflects with `Option.getD 0` at the call sites that read raw items.
-/

namespace PaidRunners

/-- Model of Python `int(x)` applied to a rational number: truncation
toward zero, as used on the `min_netbuy5` threshold. -/
def ratTrunc (q : ℚ) : ℤ := q.num / (q.den : ℤ)

/-- Python `str.lower()`, modelled characterwise. -/
def strLower (s : String) : String := ⟨s.data.map Char.toLower⟩

/-- Python `str.strip()`: drop whitespace from both ends. -/
def strStrip (s : String) : String :=
  ⟨((s.data.dropWhile Char.isWhitespace).reverse.dropWhile Char.isWhitespace).reverse⟩

/-- `_normalize_chain_id`: stringify (absent → empty), strip, lowercase,
map the known Solana aliases to the canonical id, keep anything else. -/
def normalizeChainId (chainId : String) : String :=
  let c := strLower (strStrip chainId)
  if c = "sol" ∨ c = "solana-mainnet" ∨ c = "mainnet" ∨ c = "sol-mainnet" then
    "solana"
  else c

/-- The configured chain id (`CHAIN_ID`). -/
def CHAIN_ID : String := "solana"

/-- `_age_minutes_from_pair_created_at`: the creation timestamp is
`_safe_int`-coerced (absent / non-numeric → 0, modelled by `none`); a
non-positive result yields the 999999 sentinel, otherwise the age in
minutes is `max(0, now_ms - ts) / 60000`. -/
def ageMinutesFromPairCreatedAt (nowMs : ℤ) (pairCreatedAt : Option ℤ) : ℚ :=
  let ts := pairCreatedAt.getD 0
  if ts ≤ 0 then 999999
  else ((max 0 (nowMs - ts) : ℤ) : ℚ) / 60000

/-- Turnover derivation of `compute_metrics_from_pair`:
`vol1h / liquidity` when liquidity is positive, else 0. -/
def turnoverOf (vol1 liq : ℚ) : ℚ :=
  if 0 < liq then vol1 / liq else 0

/-- The metrics record produced by `compute_metrics_from_pair`
(restricted to the fields the scoring and filtering stages read). -/
structure Metrics where
  liquidityUsd : ℚ
  vol5m : ℚ
  vol1h : ℚ
  buys5m : ℤ
  sells5m : ℤ
  netBuy5m : ℤ
  m5pct : ℚ
  h1pct : ℚ
  ageMin : ℚ
  turnover_1h_over_liq : ℚ
deriving Repr, DecidableEq

/-- Result record of `score_pair`. -/
structure ScoreResult where
  score : ℝ
  spike_score : ℝ

/-- `score_pair`: the fixed weighted heuristic.  `math.log10` is the
real base-10 logarithm `Real.logb 10`; the rational metric fields are
coerced into `ℝ` for the arithmetic, and the `m5pct > 0` bonus test is
the comparison on the stored number. -/
noncomputable def score_pair (pump_mode : Bool) (row : Metrics) : ScoreResult :=
  let liq : ℝ := (row.liquidityUsd : ℝ)
  let vol1 : ℝ := (row.vol1h : ℝ)
  let netbuy : ℝ := ((row.netBuy5m : ℤ) : ℝ)
  let m5pct : ℝ := (row.m5pct : ℝ)
  let h1pct : ℝ := (row.h1pct : ℝ)
  let turnover : ℝ := (row.turnover_1h_over_liq : ℝ)
  let liq_s : ℝ := Real.logb 10 (1 + max liq 0)
  let vol_s : ℝ := Real.logb 10 (1 + max vol1 0)
  let flow_s : ℝ := Real.logb 10 (1 + max netbuy 0)
  let mom : ℝ := m5pct * (if pump_mode then 1.15 else 0.85) + h1pct * 0.35
  let spike_score : ℝ :=
    0.55 * max 0 (mom / 10) +
    0.30 * min 2.5 (turnover * 12) +
    0.25 * min 2.0 (flow_s / 2)
  let score : ℝ :=
    0.30 * liq_s +
    0.25 * vol_s +
    1.15 * spike_score +
    (if 0 < row.m5pct then (0.15 : ℝ) else 0)
  { score := score, spike_score := spike_score }

/-- The per-mode threshold record returned by `_mode_thresholds`. -/
structure ModeThresholds where
  min_liq : ℚ
  min_vol5 : ℚ
  min_netbuy5 : ℚ
  max_age_min : ℚ
  min_score : ℚ
deriving Repr, DecidableEq

/-- `_mode_thresholds`: strip and lowercase the mode name, return the
threshold tuple for the five known modes, `degen` being the default. -/
def modeThresholds (mode : String) (pump_mode : Bool) : ModeThresholds :=
  let m := strLower (strStrip mode)
  if m = "ultra_early" then
    { min_liq := if pump_mode then 2500 else 4000
      min_vol5 := if pump_mode then 40 else 80
      min_netbuy5 := if pump_mode then 0 else 1
      max_age_min := 240
      min_score := 0.15 }
  else if m = "early_strict" then
    { min_liq := if pump_mode then 6000 else 12000
      min_vol5 := if pump_mode then 120 else 250
      min_netbuy5 := if pump_mode then 1 else 2
      max_age_min := 24 * 60
      min_score := 0.45 }
  else if m = "early" then
    { min_liq := if pump_mode then 3500 else 8000
      min_vol5 := if pump_mode then 80 else 160
      min_netbuy5 := if pump_mode then 0 else 1
      max_age_min := 24 * 60
      min_score := 0.25 }
  else if m = "strict" then
    { min_liq := if pump_mode then 15000 else 25000
      min_vol5 := if pump_mode then 250 else 500
      min_netbuy5 := if pump_mode then 2 else 3
      max_age_min := 7 * 24 * 60
      min_score := 0.85 }
  else
    { min_liq := if pump_mode then 2500 else 5000
      min_vol5 := if pump_mode then 60 else 120
      min_netbuy5 := if pump_mode then 0 else 1
      max_age_min := 7 * 24 * 60
      min_score := 0.20 }

/-- The `ScanOptions` dataclass (the progress callback is omitted:
no claim concerns it). -/
structure ScanOptions where
  selected_modes : List String
  top_n : ℤ
  candidates_max : ℤ
  anti_dead : Bool
  include_boosts : Bool
  include_profiles : Bool
  include_cto : Bool
  include_ads : Bool
  include_orders : Bool
  unique_per_token : Bool
  trending_filters : Bool
  trending_min_liquidity : ℚ
  trending_min_vol1h : ℚ
  trending_min_vol5m : ℚ
  trending_min_netbuy5m : ℤ
  spike_score_min : ℚ
  verbose_debug : Bool
  pump_mode : Bool
  sort_by_spike : Bool
  chain_id : String := CHAIN_ID
deriving Repr, DecidableEq

/-- `_anti_dead_pass`: the quick prefilter.  Young tokens pass at once;
otherwise a liquidity floor, an activity guard and a hard age cap are
applied in order. -/
def antiDeadPass (row : Metrics) (opts : ScanOptions) : Bool :=
  let liq := row.liquidityUsd
  let vol5 := row.vol5m
  let buys5 := row.buys5m
  let sells5 := row.sells5m
  let age_min := row.ageMin
  if age_min ≤ (if opts.pump_mode then (90 : ℚ) else 60) then true
  else
    let liq_floor : ℚ :=
      max 1200 (opts.trending_min_liquidity * (if opts.pump_mode then 0.75 else 0.85))
    if liq < liq_floor then false
    else
      let txns5 := buys5 + sells5
      let vol_floor : ℚ :=
        max 40 (opts.trending_min_vol5m * (if opts.pump_mode then 0.75 else 0.85))
      if txns5 < (if opts.pump_mode then 1 else 2) ∧ vol5 < vol_floor then false
      else if age_min > 10 * 24 * 60 then false
      else true

/-- The per-mode threshold gate of `run_scan_for_modes` (the five
`continue` guards): the row qualifies for the mode when none of the
rejection comparisons fires.  The score compared against `min_score`
is the one `score_pair` computed for the row. -/
def qualifiesForMode (pump_mode : Bool) (m : Metrics) (mode : String) : Prop :=
  let t := modeThresholds mode pump_mode
  ¬ (m.liquidityUsd < t.min_liq) ∧
  ¬ (m.vol5m < t.min_vol5) ∧
  ¬ (m.netBuy5m < ratTrunc t.min_netbuy5) ∧
  ¬ (m.ageMin > t.max_age_min) ∧
  ¬ ((score_pair pump_mode m).score < (t.min_score : ℝ))

/-- A raw token-boosts record, restricted to the keys
`_candidate_from_boost_item` reads.  Numeric values stand for the
`_safe_float` coercion of the stored value; a missing key is `none`. -/
structure BoostItem where
  chainId : String := ""
  tokenAddress : String := ""
  amount : Option ℚ := none
  boostAmount : Option ℚ := none
  activeBoosts : Option ℚ := none
  totalAmount : Option ℚ := none
  boostTotal : Option ℚ := none
  totalBoosts : Option ℚ := none
  type : Option String := none
  boostType : Option String := none
  url : Option String := none
deriving Repr, DecidableEq

/-- A raw ads record, restricted to the keys `_candidate_from_ad_item`
reads. -/
structure AdItem where
  chainId : String := ""
  tokenAddress : String := ""
  type : Option String := none
  date : Option String := none
  durationHours : Option ℚ := none
  url : Option String := none
deriving Repr, DecidableEq

/-- A raw community-takeover record, restricted to the keys
`_candidate_from_cto_item` reads. -/
structure CtoItem where
  chainId : String := ""
  tokenAddress : String := ""
  url : Option String := none
  description : Option String := none
  links : Option (List String) := none
deriving Repr, DecidableEq

/-- The Candidate record accumulated by the aggregator.  A key that a
given source never sets is carried at its Python-falsy default (the
merge reads absent keys through `_safe_float` / `bool` / `or`, which is
what the defaults reproduce). -/
structure Candidate where
  chainId : String := ""
  tokenAddress : String := ""
  source : String := ""
  sources : List String := []
  boostAmount : ℚ := 0
  boostTotal : ℚ := 0
  boostType : Option String := none
  isCTO : Bool := false
  adType : Option String := none
  adDate : Option String := none
  adDurationHours : Option ℚ := none
  profileUrl : String := ""
  profileDescription : String := ""
  profileLinksCount : ℤ := 0
  icon : String := ""
  header : String := ""
deriving Repr, DecidableEq

/-- The source-priority table of `_merge_candidate`:
`boosts(3) > ads(2) > cto(1) > profiles(0)`, anything else 0. -/
def priorityOf (s : String) : ℕ :=
  if s = "boosts" then 3 else if s = "ads" then 2 else if s = "cto" then 1 else 0

/-- The `sources` union loop of `_merge_candidate`: walk
`src.source :: src.sources` and append each non-empty name not yet
present. -/
def mergeSources (dstSources : List String) (src : Candidate) : List String :=
  (src.source :: src.sources).foldl
    (fun acc s => if s ≠ "" ∧ s ∉ acc then acc ++ [s] else acc) dstSources

/-- Fill-once rule on a string field: keep a truthy existing value. -/
def fillOnceStr (dstv srcv : String) : String :=
  if dstv = "" ∧ srcv ≠ "" then srcv else dstv

/-- Fill-once rule on the integer link count (0 is falsy). -/
def fillOnceInt (dstv srcv : ℤ) : ℤ :=
  if dstv = 0 ∧ srcv ≠ 0 then srcv else dstv

/-- `_merge_candidate` on two non-empty candidates: union the sources,
keep the higher-priority primary source, take the maximum of the boost
numbers, OR the CTO flag, and fill the profile fields once.  All other
keys stay as in `dst` (the code copies `dst` and only writes these). -/
def mergeCandidate (dst src : Candidate) : Candidate :=
  { dst with
    sources := mergeSources dst.sources src
    source := if priorityOf src.source > priorityOf dst.source then src.source else dst.source
    boostAmount := max dst.boostAmount src.boostAmount
    boostTotal := max dst.boostTotal src.boostTotal
    boostType := if dst.boostType.getD "" = "" then src.boostType else dst.boostType
    isCTO := dst.isCTO || src.isCTO
    profileUrl := fillOnceStr dst.profileUrl src.profileUrl
    profileDescription := fillOnceStr dst.profileDescription src.profileDescription
    profileLinksCount := fillOnceInt dst.profileLinksCount src.profileLinksCount
    icon := fillOnceStr dst.icon src.icon
    header := fillOnceStr dst.header src.header }

/-- `_merge_candidate` including its first branch: merging into the
empty table slot (`{}`, modelled `none`) returns a copy of `src`. -/
def mergeInto (dst : Option Candidate) (src : Candidate) : Candidate :=
  match dst with
  | none => src
  | some d => mergeCandidate d src

/-- `_candidate_from_boost_item`: discard a record from another chain
or with an empty token address, otherwise build the boosts candidate
(amount and total fall back through the alternative key names). -/
def candidateFromBoostItem (it : BoostItem) : Option Candidate :=
  let chain := normalizeChainId it.chainId
  if chain ≠ CHAIN_ID then none
  else
    let ta := strStrip it.tokenAddress
    if ta = "" then none
    else
      let amount := it.amount.getD (it.boostAmount.getD (it.activeBoosts.getD 0))
      let total := it.totalAmount.getD (it.boostTotal.getD (it.totalBoosts.getD amount))
      some { chainId := chain, tokenAddress := ta, source := "boosts",
             sources := ["boosts"], boostAmount := amount, boostTotal := total,
             boostType := it.type <|> it.boostType,
             profileUrl := it.url.getD "" }

/-- `_candidate_from_ad_item`. -/
def candidateFromAdItem (it : AdItem) : Option Candidate :=
  let chain := normalizeChainId it.chainId
  if chain ≠ CHAIN_ID then none
  else
    let ta := strStrip it.tokenAddress
    if ta = "" then none
    else some { chainId := chain, tokenAddress := ta, source := "ads",
                sources := ["ads"], adType := it.type, adDate := it.date,
                adDurationHours := it.durationHours, profileUrl := it.url.getD "" }

/-- `_candidate_from_cto_item`. -/
def candidateFromCtoItem (it : CtoItem) : Option Candidate :=
  let chain := normalizeChainId it.chainId
  if chain ≠ CHAIN_ID then none
  else
    let ta := strStrip it.tokenAddress
    if ta = "" then none
    else some { chainId := chain, tokenAddress := ta, source := "cto",
                sources := ["cto"], isCTO := true, profileUrl := it.url.getD "",
                profileDescription := it.description.getD "",
                profileLinksCount := (it.links.map (fun l => (l.length : ℤ))).getD 0 }

/-- The chain-id spellings that match the configured `solana` chain
after normalization. -/
def chainAliases : List String :=
  ["sol", "solana-mainnet", "mainnet", "sol-mainnet", "solana"]

end PaidRunners

namespace PaidRunners

/-- C1: for every metrics record and pump-mode flag, `score_pair`
returns exactly the spike and score formulas of the specification:
`spike_score = 0.55*max(0, mom/10) + 0.30*min(2.5, turnover*12) +
0.25*min(2.0, flow_s/2)` with `mom = m5pct*(1.15 if pump_mode else
0.85) + h1pct*0.35` and `flow_s = log10(1+max(netBuy5m,0))`, and
`score = 0.30*liq_s + 0.25*vol_s + 1.15*spike_score + (0.15 if m5pct >
0 else 0)` with `liq_s = log10(1+max(liquidity,0))` and `vol_s =
log10(1+max(vol1h,0))`. -/
theorem score_pair_formula (pump_mode : Bool) (m : Metrics) :
    (score_pair pump_mode m).spike_score =
      0.55 * max 0 (((m.m5pct : ℝ) * (if pump_mode then 1.15 else 0.85) +
          (m.h1pct : ℝ) * 0.35) / 10) +
      0.30 * min 2.5 ((m.turnover_1h_over_liq : ℝ) * 12) +
      0.25 * min 2.0 (Real.logb 10 (1 + max ((m.netBuy5m : ℤ) : ℝ) 0) / 2) ∧
    (score_pair pump_mode m).score =
      0.30 * Real.logb 10 (1 + max (m.liquidityUsd : ℝ) 0) +
      0.25 * Real.logb 10 (1 + max (m.vol1h : ℝ) 0) +
      1.15 * (score_pair pump_mode m).spike_score +
      (if 0 < m.m5pct then (0.15 : ℝ) else 0) :=
  ⟨rfl, rfl⟩

/-- The Scenario A metrics record: `liquidityUsd=20000, vol5m=300,
vol1h=1500, netBuy5m=3, m5pct=5, h1pct=2, ageMin=30`, with the turnover
derived by the metrics calculator (`1500/20000 = 0.075`). -/
def scenarioA : Metrics :=
  { liquidityUsd := 20000, vol5m := 300, vol1h := 1500, buys5m := 3, sells5m := 0,
    netBuy5m := 3, m5pct := 5, h1pct := 2, ageMin := 30,
    turnover_1h_over_liq := turnoverOf 1500 20000 }

/-- The Scenario A score clears 0.85: with `pump_mode = true` the spike
score is `0.55*0.645 + 0.30*0.9 + 0.25*min(2, log10(4)/2) ≥ 0.62475`,
and the liquidity term alone contributes `0.30*log10(20001) ≥ 1.2`. -/
theorem scenarioA_score_ge : (0.85 : ℝ) ≤ (score_pair true scenarioA).score := by
  have hb : (1:ℝ) < 10 := by norm_num
  have h1 : (4:ℝ) ≤ Real.logb 10 20001 := by
    rw [Real.le_logb_iff_rpow_le hb (by norm_num)]
    have h10 : (10:ℝ) ^ (4:ℝ) = 10000 := by
      rw [show (4:ℝ) = ((4:ℕ):ℝ) by norm_num, Real.rpow_natCast]
      norm_num
    rw [h10]; norm_num
  have h2 : (0:ℝ) ≤ Real.logb 10 1501 := Real.logb_nonneg hb (by norm_num)
  simp only [score_pair, scenarioA, turnoverOf]
  norm_num
  have hmin : (0:ℝ) ≤ (2:ℝ) ⊓ (Real.logb 10 4 / 2) :=
    le_min (by norm_num) (div_nonneg (Real.logb_nonneg hb (by norm_num)) (by norm_num))
  linarith [h1, h2, hmin]

/-- Scenario A qualifies for `strict` under `pump_mode = true`:
liquidity 20000 ≥ 15000, vol5m 300 ≥ 250, netBuy5m 3 ≥ 2, age 30 ≤
10080, and the computed score is at least 0.85. -/
theorem scenarioA_strict : qualifiesForMode true scenarioA "strict" := by
  have ht : modeThresholds "strict" true =
      { min_liq := 15000, min_vol5 := 250, min_netbuy5 := 2,
        max_age_min := 10080, min_score := 0.85 } := by
    have hm : strLower (strStrip "strict") = "strict" := by decide
    simp only [modeThresholds, hm]
    rw [if_neg (by decide), if_neg (by decide), if_neg (by decide)]
    norm_num
  refine ⟨?_, ?_, ?_, ?_, ?_⟩ <;> rw [ht]
  · decide
  · decide
  · decide
  · decide
  · rw [not_lt]
    exact le_trans (by norm_num) scenarioA_score_ge

/-- Scenario A qualifies for `early_strict` under `pump_mode = true`. -/
theorem scenarioA_early_strict : qualifiesForMode true scenarioA "early_strict" := by
  have ht : modeThresholds "early_strict" true =
      { min_liq := 6000, min_vol5 := 120, min_netbuy5 := 1,
        max_age_min := 1440, min_score := 0.45 } := by
    have hm : strLower (strStrip "early_strict") = "early_strict" := by decide
    simp only [modeThresholds, hm]
    rw [if_neg (by decide)]
    norm_num
  refine ⟨?_, ?_, ?_, ?_, ?_⟩ <;> rw [ht]
  · decide
  · decide
  · decide
  · decide
  · rw [not_lt]
    exact le_trans (by norm_num) scenarioA_score_ge

/-- Scenario A qualifies for `degen` under `pump_mode = true`. -/
theorem scenarioA_degen : qualifiesForMode true scenarioA "degen" := by
  have ht : modeThresholds "degen" true =
      { min_liq := 2500, min_vol5 := 60, min_netbuy5 := 0,
        max_age_min := 10080, min_score := 0.20 } := by
    have hm : strLower (strStrip "degen") = "degen" := by decide
    simp only [modeThresholds, hm]
    rw [if_neg (by decide), if_neg (by decide), if_neg (by decide), if_neg (by decide)]
    norm_num
  refine ⟨?_, ?_, ?_, ?_, ?_⟩ <;> rw [ht]
  · decide
  · decide
  · decide
  · decide
  · rw [not_lt]
    exact le_trans (by norm_num) scenarioA_score_ge

/-- C2, counterexample: the claim that Scenario A qualifies for
`early_strict` and `degen` but NOT for `strict` is false on the code:
the computed score is about 3.04, well above the 0.85 minimum of
`strict`, so the token qualifies for `strict` as well. -/
theorem scenarioA_claim_refuted :
    ¬ (qualifiesForMode true scenarioA "early_strict" ∧
       qualifiesForMode true scenarioA "degen" ∧
       ¬ qualifiesForMode true scenarioA "strict") :=
  fun h => h.2.2 scenarioA_strict

/-- C2, amended: Scenario A (scored and gated with `pump_mode = true`)
qualifies for `early_strict`, for `degen`, and also for `strict` — its
score, computed by the scoring formulas, is at least 0.85. -/
theorem scenarioA_modes :
    qualifiesForMode true scenarioA "early_strict" ∧
    qualifiesForMode true scenarioA "degen" ∧
    qualifiesForMode true scenarioA "strict" :=
  ⟨scenarioA_early_strict, scenarioA_degen, scenarioA_strict⟩

end PaidRunners

namespace PaidRunners

/-- C8: the anti-dead prefilter never rejects a token whose `ageMin` is
at most 60: the young-token early return fires (the cutoff is 90 in
pump mode and 60 otherwise, both at least 60), so the rejection
branches are unreachable regardless of every other field and option. -/
theorem anti_dead_young_pass (row : Metrics) (opts : ScanOptions)
    (h : row.ageMin ≤ 60) : antiDeadPass row opts = true := by
  have h90 : row.ageMin ≤ (if opts.pump_mode then (90 : ℚ) else 60) := by
    cases opts.pump_mode <;> simp <;> linarith
  simp only [antiDeadPass]
  rw [if_pos h90]

/-- Options record with the default values of `run_scan_for_modes`. -/
def defaultOpts : ScanOptions :=
  { selected_modes := ["degen"], top_n := 20, candidates_max := 250,
    anti_dead := true, include_boosts := true, include_profiles := true,
    include_cto := true, include_ads := false, include_orders := false,
    unique_per_token := true, trending_filters := true,
    trending_min_liquidity := 15000, trending_min_vol1h := 1000,
    trending_min_vol5m := 500, trending_min_netbuy5m := 2,
    spike_score_min := 0.25, verbose_debug := false, pump_mode := false,
    sort_by_spike := true }

/-- A 30-minute-old token with otherwise dead metrics. -/
def youngDeadRow : Metrics :=
  { liquidityUsd := 0, vol5m := 0, vol1h := 0, buys5m := 0, sells5m := 0,
    netBuy5m := 0, m5pct := 0, h1pct := 0, ageMin := 30,
    turnover_1h_over_liq := 0 }

/-- C8 witness: a 30-minute-old token with zero liquidity and volume
still passes the prefilter under the default options. -/
theorem anti_dead_young_pass_witness :
    youngDeadRow.ageMin ≤ 60 ∧ antiDeadPass youngDeadRow defaultOpts = true :=
  ⟨by norm_num [youngDeadRow], anti_dead_young_pass youngDeadRow defaultOpts (by norm_num [youngDeadRow])⟩

/-- C9: the derived age is never negative; when the creation timestamp
is a positive integer the age is `max(0, now_ms - ts) / 60000`, and
when the timestamp is missing or non-numeric (coerced to 0 by
`_safe_int`, modelled `none`) or non-positive the age is exactly the
999999 sentinel. -/
theorem age_minutes_spec (nowMs : ℤ) (pca : Option ℤ) :
    0 ≤ ageMinutesFromPairCreatedAt nowMs pca ∧
    (∀ ts : ℤ, pca = some ts → 0 < ts →
      ageMinutesFromPairCreatedAt nowMs pca = ((max 0 (nowMs - ts) : ℤ) : ℚ) / 60000) ∧
    ((pca = none ∨ ∃ ts : ℤ, pca = some ts ∧ ts ≤ 0) →
      ageMinutesFromPairCreatedAt nowMs pca = 999999) := by
  refine ⟨?_, ?_, ?_⟩
  · simp only [ageMinutesFromPairCreatedAt]
    split
    · norm_num
    · apply div_nonneg
      · exact_mod_cast le_max_left 0 (nowMs - pca.getD 0)
      · norm_num
  · intro ts hts hpos
    subst hts
    simp only [ageMinutesFromPairCreatedAt, Option.getD_some]
    rw [if_neg (by omega)]
  · intro h
    rcases h with h | ⟨ts, hts, hle⟩
    · subst h
      simp [ageMinutesFromPairCreatedAt]
    · subst hts
      simp only [ageMinutesFromPairCreatedAt, Option.getD_some]
      rw [if_pos hle]

/-- C9 witness: a pair created 120000 ms before `now` is 2 minutes
old, and a pair with a missing creation timestamp gets the sentinel. -/
theorem age_minutes_spec_witness :
    ageMinutesFromPairCreatedAt 180000 (some 60000) = 2 ∧
    ageMinutesFromPairCreatedAt 180000 none = 999999 := by
  constructor
  · rw [(age_minutes_spec 180000 (some 60000)).2.1 60000 rfl (by norm_num)]
    norm_num
  · exact (age_minutes_spec 180000 none).2.2 (Or.inl rfl)

/-- `normalizeChainId` maps a chain id to the configured `solana`
exactly when its stripped lowercase form is one of the five accepted
spellings. -/
theorem normalizeChainId_eq_solana (s : String) :
    normalizeChainId s = CHAIN_ID ↔ strLower (strStrip s) ∈ chainAliases := by
  simp only [normalizeChainId, CHAIN_ID, chainAliases, List.mem_cons, List.not_mem_nil, or_false]
  by_cases h : strLower (strStrip s) = "sol" ∨ strLower (strStrip s) = "solana-mainnet" ∨
      strLower (strStrip s) = "mainnet" ∨ strLower (strStrip s) = "sol-mainnet"
  · rw [if_pos h]
    simp only [true_iff]
    tauto
  · rw [if_neg h]
    push_neg at h
    constructor
    · intro he
      tauto
    · intro hm
      rcases hm with h1 | h1 | h1 | h1 | h1 <;> first | exact h1 | exact absurd h1 (by tauto)

end PaidRunners

namespace PaidRunners

/-- C10: chain matching accepts aliases.  For each of the three
candidate constructors: a record whose chainId strips and lowercases to
one of `sol`, `solana-mainnet`, `mainnet`, `sol-mainnet`, `solana` is
kept (given a non-empty token address), and a record with any other
chainId is discarded. -/
theorem chain_alias_matching (b : BoostItem) (a : AdItem) (c : CtoItem) :
    (strLower (strStrip b.chainId) ∈ chainAliases → strStrip b.tokenAddress ≠ "" →
      (candidateFromBoostItem b).isSome) ∧
    (strLower (strStrip b.chainId) ∉ chainAliases → candidateFromBoostItem b = none) ∧
    (strLower (strStrip a.chainId) ∈ chainAliases → strStrip a.tokenAddress ≠ "" →
      (candidateFromAdItem a).isSome) ∧
    (strLower (strStrip a.chainId) ∉ chainAliases → candidateFromAdItem a = none) ∧
    (strLower (strStrip c.chainId) ∈ chainAliases → strStrip c.tokenAddress ≠ "" →
      (candidateFromCtoItem c).isSome) ∧
    (strLower (strStrip c.chainId) ∉ chainAliases → candidateFromCtoItem c = none) := by
  refine ⟨?_, ?_, ?_, ?_, ?_, ?_⟩
  · intro hmem hta
    have hc : normalizeChainId b.chainId = CHAIN_ID :=
      (normalizeChainId_eq_solana b.chainId).2 hmem
    simp [candidateFromBoostItem, hc, hta]
  · intro hmem
    have hc : ¬ normalizeChainId b.chainId = CHAIN_ID :=
      fun h => hmem ((normalizeChainId_eq_solana b.chainId).1 h)
    simp [candidateFromBoostItem, hc]
  · intro hmem hta
    have hc : normalizeChainId a.chainId = CHAIN_ID :=
      (normalizeChainId_eq_solana a.chainId).2 hmem
    simp [candidateFromAdItem, hc, hta]
  · intro hmem
    have hc : ¬ normalizeChainId a.chainId = CHAIN_ID :=
      fun h => hmem ((normalizeChainId_eq_solana a.chainId).1 h)
    simp [candidateFromAdItem, hc]
  · intro hmem hta
    have hc : normalizeChainId c.chainId = CHAIN_ID :=
      (normalizeChainId_eq_solana c.chainId).2 hmem
    simp [candidateFromCtoItem, hc, hta]
  · intro hmem
    have hc : ¬ normalizeChainId c.chainId = CHAIN_ID :=
      fun h => hmem ((normalizeChainId_eq_solana c.chainId).1 h)
    simp [candidateFromCtoItem, hc]

/-- C10 witness: ` SOL `, `Solana-Mainnet` and `mainnet` records are
kept by the three constructors, and an `eth` boost record is
discarded. -/
theorem chain_alias_matching_witness :
    (candidateFromBoostItem { chainId := " SOL ", tokenAddress := "TokenA" }).isSome ∧
    candidateFromBoostItem { chainId := "eth", tokenAddress := "TokenA" } = none ∧
    (candidateFromAdItem { chainId := "Solana-Mainnet", tokenAddress := "TokenB" }).isSome ∧
    (candidateFromCtoItem { chainId := "mainnet", tokenAddress := "TokenC" }).isSome :=
  ⟨(chain_alias_matching { chainId := " SOL ", tokenAddress := "TokenA" } {} {}).1
      (by decide) (by decide),
   (chain_alias_matching { chainId := "eth", tokenAddress := "TokenA" } {} {}).2.1
      (by decide),
   (chain_alias_matching {} { chainId := "Solana-Mainnet", tokenAddress := "TokenB" } {}).2.2.1
      (by decide) (by decide),
   (chain_alias_matching {} {} { chainId := "mainnet", tokenAddress := "TokenC" }).2.2.2.2.1
      (by decide) (by decide)⟩

/-- C3: candidate merging is commutative and idempotent on
`boostAmount` and `boostTotal` (pointwise max) and on `isCTO` (logical
OR): merging in either order agrees on these three fields, and
re-merging `B` into the merged result leaves them unchanged. -/
theorem merge_candidate_comm_idem (A B : Candidate) :
    (mergeCandidate A B).boostAmount = (mergeCandidate B A).boostAmount ∧
    (mergeCandidate A B).boostTotal = (mergeCandidate B A).boostTotal ∧
    (mergeCandidate A B).isCTO = (mergeCandidate B A).isCTO ∧
    (mergeCandidate (mergeCandidate A B) B).boostAmount = (mergeCandidate A B).boostAmount ∧
    (mergeCandidate (mergeCandidate A B) B).boostTotal = (mergeCandidate A B).boostTotal ∧
    (mergeCandidate (mergeCandidate A B) B).isCTO = (mergeCandidate A B).isCTO := by
  refine ⟨max_comm _ _, max_comm _ _, Bool.or_comm _ _, ?_, ?_, ?_⟩
  · show max (max A.boostAmount B.boostAmount) B.boostAmount = max A.boostAmount B.boostAmount
    rw [max_assoc, max_self]
  · show max (max A.boostTotal B.boostTotal) B.boostTotal = max A.boostTotal B.boostTotal
    rw [max_assoc, max_self]
  · show ((A.isCTO || B.isCTO) || B.isCTO) = (A.isCTO || B.isCTO)
    rw [Bool.or_assoc, Bool.or_self]

/-- C4: a token aggregated from a boosts record and an ads record ends
with `source = "boosts"` in either merge order, keeps the maximum boost
amount seen, and its sources list contains both `"boosts"` and
`"ads"`.  The hypotheses are the shapes the two candidate constructors
produce. -/
theorem merge_boosts_ads_priority (A B : Candidate)
    (hA1 : A.source = "boosts") (hA2 : A.sources = ["boosts"])
    (hB1 : B.source = "ads") (hB2 : B.sources = ["ads"]) :
    (mergeCandidate (mergeInto none A) B).source = "boosts" ∧
    (mergeCandidate (mergeInto none B) A).source = "boosts" ∧
    (mergeCandidate (mergeInto none A) B).boostAmount = max A.boostAmount B.boostAmount ∧
    (mergeCandidate (mergeInto none B) A).boostAmount = max A.boostAmount B.boostAmount ∧
    "boosts" ∈ (mergeCandidate (mergeInto none A) B).sources ∧
    "ads" ∈ (mergeCandidate (mergeInto none A) B).sources ∧
    "boosts" ∈ (mergeCandidate (mergeInto none B) A).sources ∧
    "ads" ∈ (mergeCandidate (mergeInto none B) A).sources := by
  have hAB : mergeSources A.sources B = ["boosts", "ads"] := by
    rw [hA2]
    simp [mergeSources, hB1, hB2]
  have hBA : mergeSources B.sources A = ["ads", "boosts"] := by
    rw [hB2]
    simp [mergeSources, hA1, hA2]
  refine ⟨?_, ?_, ?_, ?_, ?_, ?_, ?_, ?_⟩
  · show (if priorityOf B.source > priorityOf A.source then B.source else A.source) = "boosts"
    rw [hA1, hB1]
    simp [priorityOf]
  · show (if priorityOf A.source > priorityOf B.source then A.source else B.source) = "boosts"
    rw [hA1, hB1]
    simp [priorityOf]
  · exact rfl
  · show max B.boostAmount A.boostAmount = max A.boostAmount B.boostAmount
    exact max_comm _ _
  · show "boosts" ∈ mergeSources A.sources B
    rw [hAB]; simp
  · show "ads" ∈ mergeSources A.sources B
    rw [hAB]; simp
  · show "boosts" ∈ mergeSources B.sources A
    rw [hBA]; simp
  · show "ads" ∈ mergeSources B.sources A
    rw [hBA]; simp

/-- A concrete boosts candidate with `boostAmount = 50`. -/
def demoBoostCand : Candidate :=
  { chainId := "solana", tokenAddress := "TokenA", source := "boosts",
    sources := ["boosts"], boostAmount := 50, boostTotal := 50 }

/-- A concrete ads candidate for the same token. -/
def demoAdCand : Candidate :=
  { chainId := "solana", tokenAddress := "TokenA", source := "ads",
    sources := ["ads"] }

/-- C4 witness: the boosts record with `boostAmount = 50` and the ads
record merge, in either order, to a candidate with source `boosts`,
boost amount 50, and both sources recorded. -/
theorem merge_boosts_ads_priority_witness :
    (mergeCandidate (mergeInto none demoBoostCand) demoAdCand).source = "boosts" ∧
    (mergeCandidate (mergeInto none demoAdCand) demoBoostCand).source = "boosts" ∧
    (mergeCandidate (mergeInto none demoBoostCand) demoAdCand).boostAmount = 50 ∧
    (mergeCandidate (mergeInto none demoAdCand) demoBoostCand).boostAmount = 50 ∧
    "boosts" ∈ (mergeCandidate (mergeInto none demoBoostCand) demoAdCand).sources ∧
    "ads" ∈ (mergeCandidate (mergeInto none demoBoostCand) demoAdCand).sources := by
  have h := merge_boosts_ads_priority demoBoostCand demoAdCand rfl rfl rfl rfl
  have hmax : max demoBoostCand.boostAmount demoAdCand.boostAmount = 50 := by decide
  exact ⟨h.1, h.2.1, by rw [h.2.2.1, hmax], by rw [h.2.2.2.1, hmax],
         h.2.2.2.2.1, h.2.2.2.2.2.1⟩

end PaidRunners

namespace PaidRunners

/-- One table write of the aggregation loop:
`candidates_by_token[key] = _merge_candidate(candidates_by_token.get(key, {}), c)`.
The dict is modelled as an insertion-ordered association list; updating
an existing key keeps its position, a new key is appended. -/
def upsertCandidate (tbl : List (String × Candidate)) (key : String)
    (c : Candidate) : List (String × Candidate) :=
  if tbl.any (fun p => p.1 == key) then
    tbl.map (fun p => if p.1 == key then (p.1, mergeCandidate p.2 c) else p)
  else tbl ++ [(key, mergeInto none c)]

/-- Fold one source's records into the candidate table, skipping
records the constructor discards; the key is the lowercased token
address. -/
def addItemsToTable {α : Type} (mk : α → Option Candidate)
    (tbl : List (String × Candidate)) (items : List α) : List (String × Candidate) :=
  items.foldl (fun t it =>
    match mk it with
    | none => t
    | some c => upsertCandidate t (strLower c.tokenAddress) c) tbl

/-- `_cand_priority`: `(source priority, boostAmount)`; the priority
values agree with `priorityOf` (an unknown source, including
`profiles`, gets 0). -/
def candPriority (c : Candidate) : ℕ × ℚ := (priorityOf c.source, c.boostAmount)

/-- Lexicographic order on the candidate priority key. -/
def candKeyLE (x y : ℕ × ℚ) : Prop :=
  x.1 < y.1 ∨ (x.1 = y.1 ∧ x.2 ≤ y.2)

instance : DecidableRel candKeyLE := fun x y => by
  unfold candKeyLE
  exact inferInstance

/-- Descending comparison used by `candidates.sort(key=_cand_priority, reverse=True)`. -/
def candGE (a b : Candidate) : Prop := candKeyLE (candPriority b) (candPriority a)

instance : DecidableRel candGE := fun a b => by
  unfold candGE
  exact inferInstance

/-- Stage 1 of `run_scan_for_modes`: collect boosts (latest, plus top
when `pump_mode`), ads and CTO records — each gated by its inclusion
flag — fold them into the per-token table, then sort the candidates
descending by `(priority, boostAmount)` and truncate to
`max(1, candidates_max)`. -/
def candidateTable (opts : ScanOptions) (boostsLatest boostsTop : List BoostItem)
    (ads : List AdItem) (ctos : List CtoItem) : List Candidate :=
  let boostsItems := if opts.include_boosts
    then boostsLatest ++ (if opts.pump_mode then boostsTop else []) else []
  let t0 := addItemsToTable candidateFromBoostItem [] boostsItems
  let t1 := if opts.include_ads then addItemsToTable candidateFromAdItem t0 ads else t0
  let t2 := if opts.include_cto then addItemsToTable candidateFromCtoItem t1 ctos else t1
  let cands := t2.map Prod.snd
  (List.insertionSort candGE cands).take (max 1 opts.candidates_max).toNat

/-- A Row of the ranking stage: the fields `_rank_key` and the
unique-per-token reduction read (scores are the stored numbers of the
row mapping). -/
structure Row where
  tokenAddress : String
  mode : String := ""
  spike_score : ℚ
  score : ℚ
  liquidityUsd : ℚ
deriving Repr, DecidableEq

/-- The early `no_candidates` exit of `run_scan_for_modes`: when the
candidate table built by stage 1 is empty, the scan returns the empty
row list together with the debug indicator `why = "no_candidates"`
(modelled as `some` of that pair; `none` means the scan proceeds). -/
def scanEarlyResult (opts : ScanOptions) (boostsLatest boostsTop : List BoostItem)
    (ads : List AdItem) (ctos : List CtoItem) : Option (List Row × String) :=
  let cands := candidateTable opts boostsLatest boostsTop ads ctos
  if cands = [] then some (([] : List Row), "no_candidates") else none

/-- C7: if every enabled promotion source returns an empty record list
(in particular if all of boosts, ads and CTO are disabled), the
candidate table is empty and `run_scan_for_modes` terminates with
`([], debug)` and `debug.why = "no_candidates"`, whatever the selected
modes; this is an ordinary return, not an exception. -/
theorem no_candidates_early_return (opts : ScanOptions)
    (boostsLatest boostsTop : List BoostItem) (ads : List AdItem) (ctos : List CtoItem)
    (hb : opts.include_boosts = true → boostsLatest = [] ∧ boostsTop = [])
    (ha : opts.include_ads = true → ads = [])
    (hc : opts.include_cto = true → ctos = []) :
    scanEarlyResult opts boostsLatest boostsTop ads ctos =
      some (([] : List Row), "no_candidates") := by
  have hbι : (if opts.include_boosts
      then boostsLatest ++ (if opts.pump_mode then boostsTop else []) else []) =
      ([] : List BoostItem) := by
    cases hib : opts.include_boosts
    · rfl
    · obtain ⟨h1, h2⟩ := hb hib
      subst h1; subst h2
      cases opts.pump_mode <;> rfl
  have haι : ∀ t : List (String × Candidate),
      (if opts.include_ads then addItemsToTable candidateFromAdItem t ads else t) = t := by
    intro t
    cases hia : opts.include_ads
    · rfl
    · rw [ha hia]; rfl
  have hcι : ∀ t : List (String × Candidate),
      (if opts.include_cto then addItemsToTable candidateFromCtoItem t ctos else t) = t := by
    intro t
    cases hic : opts.include_cto
    · rfl
    · rw [hc hic]; rfl
  have htbl : candidateTable opts boostsLatest boostsTop ads ctos = [] := by
    simp only [candidateTable, hbι, haι, hcι]
    simp [addItemsToTable]
  simp [scanEarlyResult, htbl]

/-- C7 witness: with the default options and every source returning an
empty list, the scan reports `no_candidates` with an empty row list. -/
theorem no_candidates_early_return_witness :
    scanEarlyResult defaultOpts [] [] [] [] = some (([] : List Row), "no_candidates") :=
  no_candidates_early_return defaultOpts [] [] [] []
    (fun _ => ⟨rfl, rfl⟩) (fun _ => rfl) (fun _ => rfl)

end PaidRunners

namespace PaidRunners

/-- `_rank_key`: `(spike_score if sort_by_spike else score, score,
liquidityUsd)`. -/
def rankKey (sort_by_spike : Bool) (r : Row) : ℚ × ℚ × ℚ :=
  ((if sort_by_spike then r.spike_score else r.score), r.score, r.liquidityUsd)

/-- Lexicographic order on rank-key triples (Python tuple comparison). -/
def keyLE (a b : ℚ × ℚ × ℚ) : Prop :=
  a.1 < b.1 ∨ (a.1 = b.1 ∧ (a.2.1 < b.2.1 ∨ (a.2.1 = b.2.1 ∧ a.2.2 ≤ b.2.2)))

instance : DecidableRel keyLE := fun a b => by
  unfold keyLE
  exact inferInstance

theorem keyLE_refl (a : ℚ × ℚ × ℚ) : keyLE a a :=
  Or.inr ⟨rfl, Or.inr ⟨rfl, le_refl _⟩⟩

theorem keyLE_total (a b : ℚ × ℚ × ℚ) : keyLE a b ∨ keyLE b a := by
  unfold keyLE
  rcases lt_trichotomy a.1 b.1 with h | h | h
  · exact Or.inl (Or.inl h)
  · rcases lt_trichotomy a.2.1 b.2.1 with h2 | h2 | h2
    · exact Or.inl (Or.inr ⟨h, Or.inl h2⟩)
    · rcases le_total a.2.2 b.2.2 with h3 | h3
      · exact Or.inl (Or.inr ⟨h, Or.inr ⟨h2, h3⟩⟩)
      · exact Or.inr (Or.inr ⟨h.symm, Or.inr ⟨h2.symm, h3⟩⟩)
    · exact Or.inr (Or.inr ⟨h.symm, Or.inl h2⟩)
  · exact Or.inr (Or.inl h)

theorem keyLE_trans {a b c : ℚ × ℚ × ℚ} (h1 : keyLE a b) (h2 : keyLE b c) :
    keyLE a c := by
  unfold keyLE at h1 h2 ⊢
  rcases h1 with h1 | ⟨e1, h1⟩
  · rcases h2 with h2 | ⟨e2, h2⟩
    · exact Or.inl (h1.trans h2)
    · exact Or.inl (e2 ▸ h1)
  · rcases h2 with h2 | ⟨e2, h2⟩
    · exact Or.inl (e1 ▸ h2)
    · refine Or.inr ⟨e1.trans e2, ?_⟩
      rcases h1 with h1 | ⟨f1, h1⟩
      · rcases h2 with h2 | ⟨f2, h2⟩
        · exact Or.inl (h1.trans h2)
        · exact Or.inl (f2 ▸ h1)
      · rcases h2 with h2 | ⟨f2, h2⟩
        · exact Or.inl (f1 ▸ h2)
        · exact Or.inr ⟨f1.trans f2, h1.trans h2⟩

/-- The descending comparison realized by
`rows.sort(key=_rank_key, reverse=True)`: `a` before `b` when the key
of `b` is at most the key of `a`. -/
def rowGE (sort_by_spike : Bool) (a b : Row) : Prop :=
  keyLE (rankKey sort_by_spike b) (rankKey sort_by_spike a)

instance (sbs : Bool) : DecidableRel (rowGE sbs) := fun a b => by
  unfold rowGE
  exact inferInstance

instance (sbs : Bool) : IsTotal Row (rowGE sbs) :=
  ⟨fun a b => (keyLE_total (rankKey sbs b) (rankKey sbs a)).elim Or.inl Or.inr⟩

instance (sbs : Bool) : IsTrans Row (rowGE sbs) :=
  ⟨fun _ _ _ hab hbc => keyLE_trans hbc hab⟩

/-- The descending sort of the ranking stage. -/
def sortRowsDesc (sbs : Bool) (l : List Row) : List Row :=
  List.insertionSort (rowGE sbs) l

theorem sortRowsDesc_perm (sbs : Bool) (l : List Row) : List.Perm (sortRowsDesc sbs l) l :=
  List.perm_insertionSort _ l

theorem sortRowsDesc_sorted (sbs : Bool) (l : List Row) :
    List.Pairwise (rowGE sbs) (sortRowsDesc sbs l) :=
  List.sorted_insertionSort _ l

/-- The dict key of the unique-per-token reduction:
`(r.get("tokenAddress") or "").lower()`. -/
def rowKey (r : Row) : String := strLower r.tokenAddress

/-- The unique-per-token loop: walk the (already ranked) rows, keep the
first row of each token, skip rows with an empty key, and remember the
keys seen.  The output order is first-occurrence order, as for an
insertion-ordered dict. -/
def dedupeRows : List String → List Row → List Row
  | _, [] => []
  | seen, r :: rs =>
    if rowKey r = "" then dedupeRows seen rs
    else if rowKey r ∈ seen then dedupeRows seen rs
    else r :: dedupeRows (rowKey r :: seen) rs

theorem dedupeRows_sublist (seen : List String) (l : List Row) :
    List.Sublist (dedupeRows seen l) l := by
  induction l generalizing seen with
  | nil => exact List.Sublist.refl _
  | cons x xs ih =>
    simp only [dedupeRows]
    split
    · exact (ih seen).cons x
    · split
      · exact (ih seen).cons x
      · exact (ih _).cons₂ x

theorem dedupeRows_key_ne (seen : List String) (l : List Row) :
    ∀ r ∈ dedupeRows seen l, rowKey r ≠ "" ∧ rowKey r ∉ seen := by
  induction l generalizing seen with
  | nil => simp [dedupeRows]
  | cons x xs ih =>
    simp only [dedupeRows]
    split
    · exact ih seen
    · split
      · exact ih seen
      · rename_i h0 hs
        intro r hr
        rcases List.mem_cons.1 hr with rfl | hr
        · exact ⟨h0, hs⟩
        · have h := ih (rowKey x :: seen) r hr
          exact ⟨h.1, fun hmem => h.2 (List.mem_cons_of_mem _ hmem)⟩

theorem dedupeRows_keys_nodup (seen : List String) (l : List Row) :
    ((dedupeRows seen l).map rowKey).Nodup := by
  induction l generalizing seen with
  | nil => simp [dedupeRows]
  | cons x xs ih =>
    simp only [dedupeRows]
    split
    · exact ih seen
    · split
      · exact ih seen
      · simp only [List.map_cons, List.nodup_cons]
        refine ⟨?_, ih _⟩
        intro hmem
        rcases List.mem_map.1 hmem with ⟨r, hr, hkey⟩
        exact (dedupeRows_key_ne _ _ r hr).2 (hkey ▸ List.mem_cons_self _ _)

theorem dedupeRows_mem_keys (l : List Row) :
    ∀ (seen : List String) (t : String), t ≠ "" → t ∉ seen →
      t ∈ l.map rowKey → t ∈ (dedupeRows seen l).map rowKey := by
  induction l with
  | nil => simp
  | cons x xs ih =>
    intro seen t ht hseen hmem
    rcases List.mem_cons.1 hmem with heq | hmem
    · -- t is the key of the head row
      subst heq
      simp only [dedupeRows]
      rw [if_neg ht, if_neg hseen]
      exact List.mem_cons_self _ _
    · simp only [dedupeRows]
      split
      · exact ih seen t ht hseen hmem
      · split
        · exact ih seen t ht hseen hmem
        · by_cases hx : t = rowKey x
          · subst hx
            exact List.mem_cons_self _ _
          · refine List.mem_cons_of_mem _ ?_
            exact ih (rowKey x :: seen) t ht
              (fun hm => (List.mem_cons.1 hm).elim hx hseen) hmem

theorem dedupeRows_dominates (sbs : Bool) (l : List Row) :
    ∀ seen : List String, List.Pairwise (rowGE sbs) l →
      ∀ r ∈ dedupeRows seen l, ∀ s ∈ l,
        rowKey s = rowKey r → keyLE (rankKey sbs s) (rankKey sbs r) := by
  induction l with
  | nil => intro seen _ r hr; simp [dedupeRows] at hr
  | cons x xs ih =>
    intro seen hp r hr s hs hkey
    rcases List.pairwise_cons.1 hp with ⟨hx, hxs⟩
    simp only [dedupeRows] at hr
    rcases List.mem_cons.1 hs with hshead | hstail
    · -- s is the head row
      have hkx : rowKey r = rowKey x := by rw [← hkey, hshead]
      split at hr
      · rename_i h0
        exact absurd (hkx.trans h0) (dedupeRows_key_ne seen xs r hr).1
      · split at hr
        · rename_i h0 hseen
          exact absurd (hkx ▸ hseen) (dedupeRows_key_ne seen xs r hr).2
        · rcases List.mem_cons.1 hr with hrx | hrtail
          · rw [hshead, hrx]
            exact keyLE_refl _
          · exact absurd (hkx ▸ List.mem_cons_self (rowKey x) seen)
              (dedupeRows_key_ne _ xs r hrtail).2
    · -- s is in the tail
      split at hr
      · exact ih seen hxs r hr s hstail hkey
      · split at hr
        · exact ih seen hxs r hr s hstail hkey
        · rcases List.mem_cons.1 hr with hrx | hrtail
          · rw [hrx]
            exact hx s hstail
          · exact ih _ hxs r hrtail s hstail hkey

end PaidRunners

namespace PaidRunners

/-- If the keys are non-empty, fresh and pairwise distinct, the
unique-per-token loop keeps every row. -/
theorem dedupeRows_eq_self (l : List Row) :
    ∀ seen : List String,
      (∀ r ∈ l, rowKey r ≠ "" ∧ rowKey r ∉ seen) →
      (l.map rowKey).Nodup →
      dedupeRows seen l = l := by
  induction l with
  | nil => intro seen _ _; rfl
  | cons x xs ih =>
    intro seen h hnd
    have hx := h x (List.mem_cons_self _ _)
    simp only [List.map_cons, List.nodup_cons] at hnd
    simp only [dedupeRows, if_neg hx.1, if_neg hx.2]
    congr 1
    apply ih
    · intro r hr
      refine ⟨(h r (List.mem_cons_of_mem _ hr)).1, fun hmem => ?_⟩
      rcases List.mem_cons.1 hmem with heq | hmem2
      · exact hnd.1 (heq ▸ List.mem_map_of_mem rowKey hr)
      · exact (h r (List.mem_cons_of_mem _ hr)).2 hmem2
    · exact hnd.2

/-- The unique-per-token reduction of `run_scan_for_modes`: sort the
rows descending by rank key, keep the first row per token, and re-sort
the survivors by the same key. -/
def uniqueReduce (sort_by_spike : Bool) (rows : List Row) : List Row :=
  sortRowsDesc sort_by_spike (dedupeRows [] (sortRowsDesc sort_by_spike rows))

/-- Stage 5 of `run_scan_for_modes` (ranking / dedupe / trim): sort the
qualifying rows descending by rank key, optionally apply the
unique-per-token reduction, and truncate to `max(1, top_n)`. -/
def rankStage (sort_by_spike unique_per_token : Bool) (top_n : ℤ)
    (rows : List Row) : List Row :=
  let sorted := sortRowsDesc sort_by_spike rows
  let rows2 := if unique_per_token
    then sortRowsDesc sort_by_spike (dedupeRows [] sorted) else sorted
  rows2.take (max 1 top_n).toNat

/-- C5: for every list of qualifying rows (each with a non-empty token
key, as produced by the scan), the unique-per-token reduction returns
at most as many rows, with pairwise distinct token keys covering
exactly the input tokens, and the retained row of a token has a rank
key at least that of every input row of the same token. -/
theorem unique_reduce_spec (sbs : Bool) (rows : List Row)
    (hkeys : ∀ r ∈ rows, rowKey r ≠ "") :
    (uniqueReduce sbs rows).length ≤ rows.length ∧
    ((uniqueReduce sbs rows).map rowKey).Nodup ∧
    (∀ t, t ∈ rows.map rowKey ↔ t ∈ (uniqueReduce sbs rows).map rowKey) ∧
    ∀ r ∈ uniqueReduce sbs rows, ∀ s ∈ rows,
      rowKey s = rowKey r → keyLE (rankKey sbs s) (rankKey sbs r) := by
  have hperm1 : List.Perm (sortRowsDesc sbs rows) rows := sortRowsDesc_perm sbs rows
  have hperm2 : List.Perm (uniqueReduce sbs rows)
      (dedupeRows [] (sortRowsDesc sbs rows)) := sortRowsDesc_perm sbs _
  have hsub : List.Sublist (dedupeRows [] (sortRowsDesc sbs rows))
      (sortRowsDesc sbs rows) := dedupeRows_sublist [] _
  refine ⟨?_, ?_, ?_, ?_⟩
  · calc (uniqueReduce sbs rows).length
        = (dedupeRows [] (sortRowsDesc sbs rows)).length := hperm2.length_eq
      _ ≤ (sortRowsDesc sbs rows).length := hsub.length_le
      _ = rows.length := hperm1.length_eq
  · exact ((hperm2.map rowKey).nodup_iff).2 (dedupeRows_keys_nodup [] _)
  · intro t
    constructor
    · intro ht
      rcases List.mem_map.1 ht with ⟨r, hr, hteq⟩
      subst hteq
      have hr2 : r ∈ sortRowsDesc sbs rows := hperm1.mem_iff.2 hr
      have h2 := dedupeRows_mem_keys (sortRowsDesc sbs rows) [] (rowKey r)
        (hkeys r hr) (List.not_mem_nil _) (List.mem_map_of_mem _ hr2)
      exact ((hperm2.map rowKey).mem_iff).2 h2
    · intro ht
      have h2 : t ∈ (dedupeRows [] (sortRowsDesc sbs rows)).map rowKey :=
        ((hperm2.map rowKey).mem_iff).1 ht
      rcases List.mem_map.1 h2 with ⟨r, hr, hteq⟩
      subst hteq
      exact List.mem_map_of_mem _ (hperm1.mem_iff.1 (hsub.subset hr))
  · intro r hr s hs hkey
    exact dedupeRows_dominates sbs (sortRowsDesc sbs rows) []
      (sortRowsDesc_sorted sbs rows) r (hperm2.mem_iff.1 hr) s
      (hperm1.mem_iff.2 hs) hkey

/-- Three rows over two tokens, `TokA` appearing twice. -/
def demoDupRows : List Row :=
  [ { tokenAddress := "TokA", mode := "degen", spike_score := 1, score := 1, liquidityUsd := 10 },
    { tokenAddress := "TokA", mode := "early", spike_score := 2, score := 2, liquidityUsd := 10 },
    { tokenAddress := "TokB", mode := "degen", spike_score := 3, score := 3, liquidityUsd := 20 } ]

/-- C5 witness: the reduction applied to three rows over two tokens. -/
theorem unique_reduce_spec_witness :
    (∀ r ∈ demoDupRows, rowKey r ≠ "") ∧
    (uniqueReduce true demoDupRows).length ≤ demoDupRows.length :=
  ⟨by decide, (unique_reduce_spec true demoDupRows (by decide)).1⟩

end PaidRunners

namespace PaidRunners

/-- A demo row with equal spike and score values. -/
def demoRow (t m : String) (v : ℚ) : Row :=
  { tokenAddress := t, mode := m, spike_score := v, score := v, liquidityUsd := 1000 }

/-- Twenty qualifying rows spanning only four tokens (each token
qualifying for all five modes). -/
def demoRows20 : List Row :=
  [demoRow "TokA" "ultra_early" 20, demoRow "TokA" "early_strict" 19, demoRow "TokA" "early" 18,
   demoRow "TokA" "strict" 17, demoRow "TokA" "degen" 16,
   demoRow "TokB" "ultra_early" 15, demoRow "TokB" "early_strict" 14, demoRow "TokB" "early" 13,
   demoRow "TokB" "strict" 12, demoRow "TokB" "degen" 11,
   demoRow "TokC" "ultra_early" 10, demoRow "TokC" "early_strict" 9, demoRow "TokC" "early" 8,
   demoRow "TokC" "strict" 7, demoRow "TokC" "degen" 6,
   demoRow "TokD" "ultra_early" 5, demoRow "TokD" "early_strict" 4, demoRow "TokD" "early" 3,
   demoRow "TokD" "strict" 2, demoRow "TokD" "degen" 1]

/-- C6, counterexample: with `top_n = 5`, `unique_per_token` enabled
(the default) and 20 qualifying rows that span only 4 tokens, the
ranking stage returns 4 rows, not exactly 5: the unique-per-token
reduction can shrink the qualifying set below `top_n`. -/
theorem rank_stage_dup_tokens_counterexample :
    demoRows20.length = 20 ∧ (rankStage true true 5 demoRows20).length = 4 := by
  decide

/-- C6, amended: the ranking stage output is sorted descending by the
lexicographic rank key and has at most `max(1, top_n)` entries; with
`top_n = 5` and 20 qualifying rows the output has exactly 5 rows
provided unique-per-token is disabled or the 20 rows carry pairwise
distinct token keys. -/
theorem rank_stage_sorted_truncated (sbs unique : Bool) (top_n : ℤ) (rows : List Row)
    (hkeys : ∀ r ∈ rows, rowKey r ≠ "") :
    List.Pairwise (rowGE sbs) (rankStage sbs unique top_n rows) ∧
    (rankStage sbs unique top_n rows).length ≤ (max 1 top_n).toNat ∧
    (rows.length = 20 → top_n = 5 → (unique = false ∨ (rows.map rowKey).Nodup) →
      (rankStage sbs unique top_n rows).length = 5) := by
  have hsorted2 : List.Pairwise (rowGE sbs)
      (if unique then sortRowsDesc sbs (dedupeRows [] (sortRowsDesc sbs rows))
       else sortRowsDesc sbs rows) := by
    cases unique
    · exact sortRowsDesc_sorted sbs rows
    · exact sortRowsDesc_sorted sbs _
  refine ⟨?_, ?_, ?_⟩
  · exact List.Pairwise.sublist (List.take_sublist _ _) hsorted2
  · simp only [rankStage]
    rw [List.length_take]
    exact min_le_left _ _
  · intro h20 htop hcase
    subst htop
    have hlen2 : (if unique then sortRowsDesc sbs (dedupeRows [] (sortRowsDesc sbs rows))
        else sortRowsDesc sbs rows).length = 20 := by
      cases hu : unique
      · show (sortRowsDesc sbs rows).length = 20
        rw [(sortRowsDesc_perm sbs rows).length_eq, h20]
      · show (sortRowsDesc sbs (dedupeRows [] (sortRowsDesc sbs rows))).length = 20
        rcases hcase with hfalse | hnd
        · rw [hu] at hfalse
          exact absurd hfalse (by decide)
        · have hded : dedupeRows [] (sortRowsDesc sbs rows) = sortRowsDesc sbs rows :=
            dedupeRows_eq_self (sortRowsDesc sbs rows) []
              (fun r hr => ⟨hkeys r ((sortRowsDesc_perm sbs rows).mem_iff.1 hr),
                List.not_mem_nil _⟩)
              (((sortRowsDesc_perm sbs rows).map rowKey).nodup_iff.2 hnd)
          rw [hded, (sortRowsDesc_perm sbs (sortRowsDesc sbs rows)).length_eq,
            (sortRowsDesc_perm sbs rows).length_eq, h20]
    simp only [rankStage]
    rw [List.length_take, hlen2]
    decide

/-- Twenty qualifying rows with pairwise distinct tokens. -/
def demoDistinct20 : List Row :=
  [demoRow "T01" "degen" 20, demoRow "T02" "degen" 19, demoRow "T03" "degen" 18,
   demoRow "T04" "degen" 17, demoRow "T05" "degen" 16, demoRow "T06" "degen" 15,
   demoRow "T07" "degen" 14, demoRow "T08" "degen" 13, demoRow "T09" "degen" 12,
   demoRow "T10" "degen" 11, demoRow "T11" "degen" 10, demoRow "T12" "degen" 9,
   demoRow "T13" "degen" 8, demoRow "T14" "degen" 7, demoRow "T15" "degen" 6,
   demoRow "T16" "degen" 5, demoRow "T17" "degen" 4, demoRow "T18" "degen" 3,
   demoRow "T19" "degen" 2, demoRow "T20" "degen" 1]

/-- C6 witness: with 20 distinct-token qualifying rows and `top_n = 5`
the ranking stage returns exactly 5 rows. -/
theorem rank_stage_sorted_truncated_witness :
    (rankStage true true 5 demoDistinct20).length = 5 :=
  (rank_stage_sorted_truncated true true 5 demoDistinct20 (by decide)).2.2
    (by decide) rfl (Or.inr (by decide))

end PaidRunners
